import Mathlib

/-
Verification of the eradicate-tui core (src/lib.rs, src/main.rs).

The Rust core is shallowly embedded: paths (PathBuf) are modelled as
strings, the filesystem and the glob library are oracles passed as
function parameters (a file probe, a glob expansion, and the two delete
primitives), and the tui ListState is embedded with its selected index
and render offset.  A Rust index-out-of-bounds panic is modelled as the
`none` result of an Option-valued operation.
-/

/-- AppMode from src/lib.rs lines 8-11: Normal is the browsing mode,
Insert is the pattern-editing mode. -/
inductive AppMode where
  | Normal : AppMode
  | Insert : AppMode
deriving DecidableEq

/-- Input from src/lib.rs lines 15-38.  The two tui Style fields are
render-only attributes never read by the core logic and are omitted. -/
structure Input where
  name : String
  content : String
deriving DecidableEq

/-- Input::new (src/lib.rs lines 23-30): named input with empty content. -/
def Input.new (name : String) : Input :=
  { name := name, content := "" }

/-- Input::push_ch (src/lib.rs lines 31-33). -/
def Input.push_ch (inp : Input) (ch : Char) : Input :=
  { inp with content := inp.content.push ch }

/-- Input::pop_ch (src/lib.rs lines 35-37): String::pop removes the last
character and is a no-op on the empty string. -/
def Input.pop_ch (inp : Input) : Input :=
  { inp with content := inp.content.dropRight 1 }

/-- glob::MatchOptions (external glob crate), held by App. -/
structure MatchOptions where
  case_sensitive : Bool
  require_literal_separator : Bool
  require_literal_leading_dot : Bool
deriving DecidableEq

/-- glob::MatchOptions::new(): case-sensitive by default. -/
def MatchOptions.new : MatchOptions :=
  { case_sensitive := true
    require_literal_separator := false
    require_literal_leading_dot := false }

/-- PathEntry from src/lib.rs lines 139-144. -/
structure PathEntry where
  pathbuf : String
  is_file : Bool
  _is_delete : Bool
deriving DecidableEq

/-- PathEntry::new (src/lib.rs lines 147-153): probes the filesystem once
(the probe is the oracle argument) and starts marked for deletion. -/
def PathEntry.new (fs_is_file : String → Bool) (pathbuf : String) : PathEntry :=
  { pathbuf := pathbuf, is_file := fs_is_file pathbuf, _is_delete := true }

/-- PathEntry::toggle_delete (src/lib.rs lines 155-157). -/
def PathEntry.toggle_delete (e : PathEntry) : PathEntry :=
  { e with _is_delete := !e._is_delete }

/-- PathEntry::is_delete (src/lib.rs lines 159-161). -/
def PathEntry.is_delete (e : PathEntry) : Bool :=
  e._is_delete

/-- tui::widgets::ListState (external tui crate): render offset plus the
optional selected index. -/
structure ListState where
  offset : Nat
  selected : Option Nat
deriving DecidableEq

/-- ListState::default(): offset 0, nothing selected. -/
def ListState.default : ListState :=
  { offset := 0, selected := none }

/-- ListState::select: stores the index; resets the render offset when
deselecting. -/
def ListState.select (s : ListState) (index : Option Nat) : ListState :=
  { selected := index, offset := if index.isNone then 0 else s.offset }

/-- StatefulList from src/lib.rs lines 164-167. -/
structure StatefulList (T : Type) where
  state : ListState
  items : List T
deriving DecidableEq

/-- StatefulList::new (src/lib.rs lines 170-175). -/
def StatefulList.new {T : Type} : StatefulList T :=
  { state := ListState.default, items := [] }

/-- StatefulList::with_items (src/lib.rs lines 177-184): builds the list
from the given items and then unconditionally calls state.select(Some(0)),
including when items is empty. -/
def StatefulList.with_items {T : Type} (items : List T) : StatefulList T :=
  { state := ListState.default.select (some 0), items := items }

/-- StatefulList::get_index (src/lib.rs lines 186-188). -/
def StatefulList.get_index {T : Type} (l : StatefulList T) : Option Nat :=
  l.state.selected

/-- StatefulList::next (src/lib.rs lines 190-206): no-op on an empty list,
otherwise advance with wraparound from the last index to 0; a missing
selection becomes index 0. -/
def StatefulList.next {T : Type} (l : StatefulList T) : StatefulList T :=
  if l.items.isEmpty then l
  else
    let i := match l.state.selected with
      | some i => if l.items.length - 1 ≤ i then 0 else i + 1
      | none => 0
    { l with state := l.state.select (some i) }

/-- StatefulList::previous (src/lib.rs lines 208-224): no-op on an empty
list, otherwise step back with wraparound from 0 to the last index; a
missing selection becomes index 0. -/
def StatefulList.previous {T : Type} (l : StatefulList T) : StatefulList T :=
  if l.items.isEmpty then l
  else
    let i := match l.state.selected with
      | some i => if i = 0 then l.items.length - 1 else i - 1
      | none => 0
    { l with state := l.state.select (some i) }

/-- StatefulList::unselect (src/lib.rs lines 226-228). -/
def StatefulList.unselect {T : Type} (l : StatefulList T) : StatefulList T :=
  { l with state := l.state.select none }

/-- App from src/lib.rs lines 40-45. -/
structure App where
  list : StatefulList PathEntry
  app_mode : AppMode
  pattern : Input
  glob_options : MatchOptions
deriving DecidableEq

/-- App::new (src/lib.rs lines 48-59). -/
def App.new : App :=
  { list := StatefulList.new
    app_mode := AppMode.Normal
    pattern := Input.new "Pattern"
    glob_options := MatchOptions.new }

/-- App::set_app_mode (src/lib.rs lines 61-63). -/
def App.set_app_mode (app : App) (m : AppMode) : App :=
  { app with app_mode := m }

/-- App::push_ch (src/lib.rs lines 65-67). -/
def App.push_ch (app : App) (ch : Char) : App :=
  { app with pattern := app.pattern.push_ch ch }

/-- App::pop_ch (src/lib.rs lines 69-71). -/
def App.pop_ch (app : App) : App :=
  { app with pattern := app.pattern.pop_ch }

/-- App::toggle_case_sensitive (src/lib.rs lines 83-85). -/
def App.toggle_case_sensitive (app : App) : App :=
  { app with glob_options :=
      { app.glob_options with
        case_sensitive := !app.glob_options.case_sensitive } }

/-- App::search_with_pattern (src/lib.rs lines 87-94).  globWith is the
external glob_with oracle: it either rejects the pattern (outer error) or
yields per-path results, the failing ones of which filter_map(Result::ok)
silently drops; the surviving paths become fresh PathEntry values. -/
def App.search_with_pattern
    (globWith : String → MatchOptions → Except Unit (List (Except Unit String)))
    (fs_is_file : String → Bool) (app : App) : Except Unit (List PathEntry) :=
  match globWith app.pattern.content app.glob_options with
  | Except.error e => Except.error e
  | Except.ok results =>
      Except.ok ((results.filterMap Except.toOption).map (PathEntry.new fs_is_file))

/-- App::update_list (src/lib.rs lines 96-98). -/
def App.update_list (app : App) (entries : List PathEntry) : App :=
  { app with list := StatefulList.with_items entries }

/-- App::set_pattern (src/lib.rs lines 73-77): run the search; on success
replace the list, on failure propagate the error leaving the App as is. -/
def App.set_pattern
    (globWith : String → MatchOptions → Except Unit (List (Except Unit String)))
    (fs_is_file : String → Bool) (app : App) : Except Unit App :=
  match app.search_with_pattern globWith fs_is_file with
  | Except.error e => Except.error e
  | Except.ok entries => Except.ok (app.update_list entries)

/-- App::get_entries_by (src/lib.rs lines 111-121): clone of the items
satisfying the predicate, in list order. -/
def App.get_entries_by (app : App) (predicate : PathEntry → Bool) : List PathEntry :=
  app.list.items.filter predicate

/-- App::toggle_delete (src/lib.rs lines 100-109): no-op when nothing is
selected; otherwise indexes items with the selected index.  The Rust
expression self.list.items[i] panics when i is out of bounds; the panic is
modelled by the none result. -/
def App.toggle_delete (app : App) : Option App :=
  match app.list.get_index with
  | none => some app
  | some i =>
      if h : i < app.list.items.length then
        some { app with list := { app.list with
          items := app.list.items.set i
            ((app.list.items.get ⟨i, h⟩).toggle_delete) } }
      else none

/-- One filesystem delete attempt from the loop body of
App::delete_active_entries (src/lib.rs lines 126-130): remove_file for a
file, remove_dir_all otherwise.  The two oracles report success. -/
def deleteOne (removeFile removeDirAll : String → Bool) (e : PathEntry) : Bool :=
  if e.is_file then removeFile e.pathbuf else removeDirAll e.pathbuf

/-- The delete loop of App::delete_active_entries (src/lib.rs lines
125-131): attempt deletions in list order, returning the trace of
attempted entries together with the success flag; the question-mark
operator aborts the loop at the first failed attempt. -/
def runDeletes (f : PathEntry → Bool) : List PathEntry → List PathEntry × Bool
  | [] => ([], true)
  | e :: rest =>
      if f e then
        let r := runDeletes f rest
        (e :: r.1, r.2)
      else ([e], false)

/-- App::delete_active_entries (src/lib.rs lines 123-137): delete every
marked entry in order, fail-fast via the question-mark operator; only
when every deletion succeeded is the list rebuilt from the unmarked
entries.  Returns the trace of attempted deletions, the success flag
(false models the early Err return), and the resulting App. -/
def App.delete_active_entries (removeFile removeDirAll : String → Bool)
    (app : App) : List PathEntry × Bool × App :=
  match runDeletes (deleteOne removeFile removeDirAll)
      (app.get_entries_by (fun e => e.is_delete)) with
  | (attempted, true) =>
      (attempted, true,
        app.update_list (app.get_entries_by (fun e => !e.is_delete)))
  | (attempted, false) => (attempted, false, app)

/-- Key codes from the Insert-mode match of run_app (src/main.rs lines
78-89); Other stands for the wildcard arm. -/
inductive KeyCode where
  | Char : Char → KeyCode
  | Enter : KeyCode
  | Backspace : KeyCode
  | Esc : KeyCode
  | Other : KeyCode
deriving DecidableEq

/-- Outcome of one iteration of the run_app loop body: next_iter
continues the interaction loop with the updated App; fail models the
question-mark operator propagating an error out of run_app, which ends
the interaction loop. -/
inductive StepResult where
  | next_iter : App → StepResult
  | fail : App → StepResult
deriving DecidableEq

/-- The Insert-mode key dispatch of run_app (src/main.rs lines 78-89).
On Enter, app.set_pattern()? either succeeds and then the mode is set to
Normal, or its error is propagated by the question-mark operator, ending
the loop with the App untouched and the mode still Insert. -/
def handle_insert_key
    (globWith : String → MatchOptions → Except Unit (List (Except Unit String)))
    (fs_is_file : String → Bool) (app : App) (key : KeyCode) : StepResult :=
  match key with
  | KeyCode.Char ch => StepResult.next_iter (app.push_ch ch)
  | KeyCode.Enter =>
      match app.set_pattern globWith fs_is_file with
      | Except.ok app1 => StepResult.next_iter (app1.set_app_mode AppMode.Normal)
      | Except.error _ => StepResult.fail app
  | KeyCode.Backspace => StepResult.next_iter app.pop_ch
  | KeyCode.Esc => StepResult.next_iter (app.set_app_mode AppMode.Normal)
  | KeyCode.Other => StepResult.next_iter app

/-
Theorems.  Each claim of the specification is settled below; general
lemmas about the embedded operations come first.
-/

/-- next never changes the items. -/
theorem StatefulList.next_items {T : Type} (l : StatefulList T) :
    (StatefulList.next l).items = l.items := by
  unfold StatefulList.next
  split
  · rfl
  · rfl

/-- previous never changes the items. -/
theorem StatefulList.previous_items {T : Type} (l : StatefulList T) :
    (StatefulList.previous l).items = l.items := by
  unfold StatefulList.previous
  split
  · rfl
  · rfl

/-- On a nonempty list with a selection, next lands on the if-expression
of the source. -/
theorem StatefulList.next_selected_eq {T : Type} (l : StatefulList T) (i : Nat)
    (hne : l.items.isEmpty = false) (hsel : l.state.selected = some i) :
    (StatefulList.next l).state.selected
      = some (if l.items.length - 1 ≤ i then 0 else i + 1) := by
  unfold StatefulList.next
  rw [hne]
  simp only [Bool.false_eq_true, if_false, hsel, ListState.select]

/-- On a nonempty list with a selection, previous lands on the
if-expression of the source. -/
theorem StatefulList.previous_selected_eq {T : Type} (l : StatefulList T) (i : Nat)
    (hne : l.items.isEmpty = false) (hsel : l.state.selected = some i) :
    (StatefulList.previous l).state.selected
      = some (if i = 0 then l.items.length - 1 else i - 1) := by
  unfold StatefulList.previous
  rw [hne]
  simp only [Bool.false_eq_true, if_false, hsel, ListState.select]

/-- On a nonempty list, an in-bounds selection advances by one modulo the
length. -/
theorem StatefulList.next_selected_of_lt {T : Type} (l : StatefulList T) (i : Nat)
    (hsel : l.state.selected = some i) (hlt : i < l.items.length) :
    (StatefulList.next l).state.selected = some ((i + 1) % l.items.length) := by
  have hne : l.items.isEmpty = false := by
    cases hl : l.items with
    | nil => rw [hl] at hlt; simp at hlt
    | cons a t => rfl
  rw [StatefulList.next_selected_eq l i hne hsel]
  by_cases hcase : l.items.length - 1 ≤ i
  · have hi : i + 1 = l.items.length := by omega
    rw [if_pos hcase, hi, Nat.mod_self]
  · rw [if_neg hcase, Nat.mod_eq_of_lt (by omega)]

/-- Iterating next from an in-bounds selection walks the indices modulo
the length and keeps the items. -/
theorem StatefulList.next_iterate_mod {T : Type} (l : StatefulList T) (i : Nat)
    (hsel : l.state.selected = some i) (hlt : i < l.items.length) (k : Nat) :
    (StatefulList.next^[k] l).state.selected = some ((i + k) % l.items.length)
      ∧ (StatefulList.next^[k] l).items = l.items := by
  induction k with
  | zero =>
    constructor
    · simpa [Nat.mod_eq_of_lt hlt] using hsel
    · rfl
  | succ k ih =>
    obtain ⟨h1, h2⟩ := ih
    have hlen : 0 < l.items.length := by omega
    have hlt2 : (i + k) % l.items.length < (StatefulList.next^[k] l).items.length := by
      rw [h2]; exact Nat.mod_lt _ hlen
    constructor
    · rw [Function.iterate_succ_apply',
        StatefulList.next_selected_of_lt _ _ h1 hlt2, h2, Nat.mod_add_mod,
        ← Nat.add_assoc]
    · rw [Function.iterate_succ_apply', StatefulList.next_items, h2]

/-- C4: the claim states that with_items on an empty sequence yields
selection None.  Evaluating the code at the failing input: with_items of
the empty list leaves selection Some(0), because the source calls
state.select(Some(0)) unconditionally (src/lib.rs line 182).  The
nonempty half of the claim does hold, as the second conjunct shows on a
singleton. -/
theorem with_items_empty_selects_zero :
    (StatefulList.with_items ([] : List PathEntry)).state.selected = some 0
      ∧ (StatefulList.with_items [PathEntry.new (fun _ => true) "a"]).state.selected
          = some 0 := by
  exact ⟨rfl, rfl⟩

/-- C5: the claim states that every state reachable through the public
operations has an in-bounds or None selection.  Evaluating the code at
the failing input: committing a search that matches nothing (the glob
oracle succeeds with zero paths) produces, through the public operation
set_pattern, a state whose selection is Some(0) while items is empty, so
the index 0 is out of bounds. -/
theorem empty_search_out_of_bounds_selection :
    ∃ app1 : App,
      App.set_pattern (fun _ _ => Except.ok []) (fun _ => false) App.new
          = Except.ok app1
        ∧ app1.list.state.selected = some 0
        ∧ app1.list.items = [] := by
  exact ⟨App.update_list App.new [], rfl, rfl, rfl⟩

/-- C6: the claim states that move_next, move_previous and toggle-mark on
every empty collection never panic and leave current_index() = None.
Evaluating the code at the failing input: the empty collection produced
by with_items (reachable via a search with zero matches) carries
selection Some(0); next and previous leave that selection at Some(0),
not None, and toggle-mark evaluates items[0] on the empty list, an
index-out-of-bounds panic (modelled as none). -/
theorem empty_list_some_selection_toggle_panics :
    (App.update_list App.new []).toggle_delete = none
      ∧ ((App.update_list App.new []).list.next).state.selected = some 0
      ∧ ((App.update_list App.new []).list.previous).state.selected = some 0
      ∧ ((App.update_list App.new []).list.next).items = [] := by
  exact ⟨rfl, rfl, rfl, rfl⟩

/-- C9: every entry is created with its deletion mark set to true, and
toggling the mark twice restores the entry exactly, whatever the initial
flag value. -/
theorem entry_default_marked_and_toggle_involutive :
    (∀ (fs_is_file : String → Bool) (p : String),
        (PathEntry.new fs_is_file p).is_delete = true)
      ∧ (∀ e : PathEntry, e.toggle_delete.toggle_delete = e) := by
  constructor
  · intro fs p
    rfl
  · intro e
    cases e
    simp [PathEntry.toggle_delete]

/-- C3 counterexample: committing a search whose pattern the glob library
rejects (the oracle returns an error, as glob does for the malformed
pattern stored in the input buffer here) makes the Insert-mode Enter
branch of run_app return the fail outcome: the question-mark on
app.set_pattern() propagates the error out of run_app, ending the
interaction loop, and the mode of the surviving App is still Insert —
it was never reverted to Normal, since set_app_mode sits after the
question-mark.  The claim asserted the loop does not terminate and the
mode reverts to Browsing. -/
theorem malformed_pattern_terminates_loop_counterexample :
    handle_insert_key (fun _ _ => Except.error ()) (fun _ => true)
        { App.new with
          app_mode := AppMode.Insert
          pattern := { name := "Pattern", content := "[" }
          list := StatefulList.with_items
            [{ pathbuf := "x.txt", is_file := true, _is_delete := true }] }
        KeyCode.Enter
      = StepResult.fail
        { App.new with
          app_mode := AppMode.Insert
          pattern := { name := "Pattern", content := "[" }
          list := StatefulList.with_items
            [{ pathbuf := "x.txt", is_file := true, _is_delete := true }] }
      ∧ ({ App.new with
          app_mode := AppMode.Insert
          pattern := { name := "Pattern", content := "[" }
          list := StatefulList.with_items
            [{ pathbuf := "x.txt", is_file := true, _is_delete := true }] } : App).app_mode
          = AppMode.Insert := by
  exact ⟨rfl, rfl⟩

/-- C3 as amended: when the glob oracle rejects the pattern, the
Insert-mode Enter branch of run_app leaves the whole App — entry list,
selection, buffer, and mode — exactly as it was and yields the fail
outcome, i.e. set_pattern surfaced the error as a result value and
run_app propagated it, terminating the interaction loop without
reverting the mode. -/
theorem malformed_pattern_keeps_state_and_fails_loop
    (globWith : String → MatchOptions → Except Unit (List (Except Unit String)))
    (fs_is_file : String → Bool) (app : App)
    (herr : globWith app.pattern.content app.glob_options = Except.error ()) :
    handle_insert_key globWith fs_is_file app KeyCode.Enter
      = StepResult.fail app := by
  unfold handle_insert_key App.set_pattern App.search_with_pattern
  rw [herr]

/-- C3 witness: the amended theorem applied to a concrete Insert-mode App
holding two listed entries and a failing glob oracle. -/
theorem malformed_pattern_keeps_state_and_fails_loop_witness :
    handle_insert_key (fun _ _ => Except.error ()) (fun _ => false)
        { App.new with
          app_mode := AppMode.Insert
          pattern := { name := "Pattern", content := "a[" }
          list := StatefulList.with_items
            [{ pathbuf := "a.txt", is_file := true, _is_delete := true },
             { pathbuf := "b", is_file := false, _is_delete := false }] }
        KeyCode.Enter
      = StepResult.fail
        { App.new with
          app_mode := AppMode.Insert
          pattern := { name := "Pattern", content := "a[" }
          list := StatefulList.with_items
            [{ pathbuf := "a.txt", is_file := true, _is_delete := true },
             { pathbuf := "b", is_file := false, _is_delete := false }] } := by
  exact malformed_pattern_keeps_state_and_fails_loop _ _ _ rfl

/-- When every attempt succeeds, the delete loop attempts every entry in
order and reports success. -/
theorem runDeletes_all_true (f : PathEntry → Bool) (l : List PathEntry)
    (h : ∀ e ∈ l, f e = true) : runDeletes f l = (l, true) := by
  induction l with
  | nil => rfl
  | cons e rest ih =>
    have he : f e = true := h e (List.mem_cons_self e rest)
    have ih' := ih (fun x hx => h x (List.mem_cons_of_mem e hx))
    simp [runDeletes, he, ih']

/-- When some attempt fails, the delete loop attempts exactly the
successful prefix plus the first failing entry, and reports failure. -/
theorem runDeletes_exists_false (f : PathEntry → Bool) (l : List PathEntry)
    (h : ∃ e ∈ l, f e = false) :
    runDeletes f l = (l.takeWhile f ++ (l.dropWhile f).take 1, false) := by
  induction l with
  | nil => simp at h
  | cons e rest ih =>
    by_cases he : f e = true
    · obtain ⟨x, hx, hfx⟩ := h
      have hx' : x ∈ rest := by
        rcases List.mem_cons.mp hx with rfl | h2
        · rw [he] at hfx
          cases hfx
        · exact h2
      have ih' := ih ⟨x, hx', hfx⟩
      simp [runDeletes, he, List.takeWhile_cons, List.dropWhile_cons, ih']
    · have he' : f e = false := by
        revert he
        cases f e <;> simp
      simp [runDeletes, he', List.takeWhile_cons, List.dropWhile_cons]

/-- C1: if some marked entry fails to delete, commit-delete attempts
exactly the successful prefix of the marked entries plus the first
failing one — it stops before attempting any further deletion — reports
the error (flag false), and returns the App unchanged, so entries.items
after the call is identical to entries.items before it. -/
theorem delete_failure_fail_fast_preserves_items
    (removeFile removeDirAll : String → Bool) (app : App)
    (h : ∃ e ∈ app.get_entries_by (fun e => e.is_delete),
        deleteOne removeFile removeDirAll e = false) :
    app.delete_active_entries removeFile removeDirAll
      = ((app.get_entries_by (fun e => e.is_delete)).takeWhile
            (deleteOne removeFile removeDirAll)
          ++ ((app.get_entries_by (fun e => e.is_delete)).dropWhile
            (deleteOne removeFile removeDirAll)).take 1,
         false, app) := by
  unfold App.delete_active_entries
  rw [runDeletes_exists_false _ _ h]

/-- C1 witness: a concrete App with one marked file entry whose
remove_file primitive fails; commit-delete attempts only that entry,
reports failure, and leaves the App untouched. -/
theorem delete_failure_fail_fast_preserves_items_witness :
    (App.update_list App.new
        [{ pathbuf := "a.txt", is_file := true, _is_delete := true },
         { pathbuf := "b.txt", is_file := true, _is_delete := true }]).delete_active_entries
        (fun _ => false) (fun _ => true)
      = (((App.update_list App.new
            [{ pathbuf := "a.txt", is_file := true, _is_delete := true },
             { pathbuf := "b.txt", is_file := true, _is_delete := true }]).get_entries_by
              (fun e => e.is_delete)).takeWhile
                (deleteOne (fun _ => false) (fun _ => true))
          ++ (((App.update_list App.new
            [{ pathbuf := "a.txt", is_file := true, _is_delete := true },
             { pathbuf := "b.txt", is_file := true, _is_delete := true }]).get_entries_by
              (fun e => e.is_delete)).dropWhile
                (deleteOne (fun _ => false) (fun _ => true))).take 1,
         false,
         App.update_list App.new
           [{ pathbuf := "a.txt", is_file := true, _is_delete := true },
            { pathbuf := "b.txt", is_file := true, _is_delete := true }]) := by
  exact delete_failure_fail_fast_preserves_items (fun _ => false) (fun _ => true) _
    (by decide)

/-- C2 counterexample: on a list holding two entries with the same path,
one marked and one unmarked, a fully successful commit-delete leaves a
list that still contains the path of the deleted entry, so the claim's
clause that the result contains none of the deleted paths fails as
stated for arbitrary entry lists: the flag is deletion-success, the
second conjunct is the resulting paths, the third the deleted paths. -/
theorem commit_delete_duplicate_path_counterexample :
    ((App.update_list App.new
        [{ pathbuf := "p", is_file := true, _is_delete := true },
         { pathbuf := "p", is_file := true, _is_delete := false }]).delete_active_entries
        (fun _ => true) (fun _ => true)).2.1 = true
      ∧ (((App.update_list App.new
          [{ pathbuf := "p", is_file := true, _is_delete := true },
           { pathbuf := "p", is_file := true, _is_delete := false }]).delete_active_entries
          (fun _ => true) (fun _ => true)).2.2.list.items.map PathEntry.pathbuf
          = ["p"])
      ∧ (((App.update_list App.new
          [{ pathbuf := "p", is_file := true, _is_delete := true },
           { pathbuf := "p", is_file := true, _is_delete := false }]).get_entries_by
            (fun e => e.is_delete)).map PathEntry.pathbuf
          = ["p"]) := by
  exact ⟨rfl, rfl, rfl⟩

/-- C2 as amended: if every deletion of a commit-delete succeeds (or no
entry is marked), the resulting entries.items is exactly the subsequence
of prior entries whose mark is false, in their original order — this
holds for every entry list — and, provided the prior entries' paths are
pairwise distinct, as a glob expansion produces them, it contains none
of the paths of the deleted (marked) entries. -/
theorem commit_delete_success_filters_unmarked
    (removeFile removeDirAll : String → Bool) (app : App)
    (hall : ∀ e ∈ app.get_entries_by (fun e => e.is_delete),
        deleteOne removeFile removeDirAll e = true) :
    (app.delete_active_entries removeFile removeDirAll).2.1 = true
      ∧ (app.delete_active_entries removeFile removeDirAll).2.2.list.items
          = app.list.items.filter (fun e => !e.is_delete)
      ∧ ((app.list.items.map PathEntry.pathbuf).Nodup →
          ((app.delete_active_entries removeFile removeDirAll).2.2.list.items.all
            (fun e1 => (app.get_entries_by (fun e => e.is_delete)).all
              (fun e2 => !(e1.pathbuf == e2.pathbuf))) = true)) := by
  have hrun := runDeletes_all_true _ _ hall
  unfold App.delete_active_entries
  rw [hrun]
  refine ⟨rfl, rfl, ?_⟩
  intro hnodup
  rw [List.all_eq_true]
  intro e1 he1
  rw [List.all_eq_true]
  intro e2 he2
  simp only [App.update_list, StatefulList.with_items, App.get_entries_by,
    List.mem_filter] at he1 he2
  simp only [Bool.not_eq_true', beq_eq_false_iff_ne, ne_eq]
  intro hpath
  have heq : e1 = e2 := List.inj_on_of_nodup_map hnodup he1.1 he2.1 hpath
  rw [heq] at he1
  rw [he2.2] at he1
  cases he1.2

/-- C2 witness: a two-entry App, first entry marked, second unmarked,
with always-succeeding delete primitives; the hypotheses are discharged
by computation. -/
theorem commit_delete_success_filters_unmarked_witness :
    ((App.update_list App.new
        [{ pathbuf := "a.txt", is_file := true, _is_delete := true },
         { pathbuf := "b", is_file := false, _is_delete := false }]).delete_active_entries
        (fun _ => true) (fun _ => true)).2.1 = true
      ∧ ((App.update_list App.new
          [{ pathbuf := "a.txt", is_file := true, _is_delete := true },
           { pathbuf := "b", is_file := false, _is_delete := false }]).delete_active_entries
          (fun _ => true) (fun _ => true)).2.2.list.items
          = (App.update_list App.new
              [{ pathbuf := "a.txt", is_file := true, _is_delete := true },
               { pathbuf := "b", is_file := false, _is_delete := false }]).list.items.filter
              (fun e => !e.is_delete)
      ∧ (((App.update_list App.new
          [{ pathbuf := "a.txt", is_file := true, _is_delete := true },
           { pathbuf := "b", is_file := false, _is_delete := false }]).delete_active_entries
          (fun _ => true) (fun _ => true)).2.2.list.items.all
            (fun e1 => ((App.update_list App.new
              [{ pathbuf := "a.txt", is_file := true, _is_delete := true },
               { pathbuf := "b", is_file := false, _is_delete := false }]).get_entries_by
                (fun e => e.is_delete)).all
              (fun e2 => !(e1.pathbuf == e2.pathbuf))) = true) := by
  have h := commit_delete_success_filters_unmarked (fun _ => true) (fun _ => true)
    (App.update_list App.new
      [{ pathbuf := "a.txt", is_file := true, _is_delete := true },
       { pathbuf := "b", is_file := false, _is_delete := false }])
    (by decide)
  exact ⟨h.1, h.2.1, h.2.2 (by decide)⟩

/-- C7 counterexample: on a one-element collection with no selection,
applying move_next len = 1 times yields selection Some(0), not the
starting value None, so the wraparound-closure claim fails as stated for
the None selection it includes. -/
theorem next_iterate_none_selection_counterexample :
    (StatefulList.mk (ListState.mk 0 none)
        [({ pathbuf := "a", is_file := true, _is_delete := true } :
          PathEntry)]).state.selected = none
      ∧ (StatefulList.next^[(StatefulList.mk (ListState.mk 0 none)
            [({ pathbuf := "a", is_file := true, _is_delete := true } :
              PathEntry)]).items.length]
          (StatefulList.mk (ListState.mk 0 none)
            [({ pathbuf := "a", is_file := true, _is_delete := true } :
              PathEntry)])).state.selected
          = some 0 := by
  exact ⟨rfl, rfl⟩

/-- C7 as amended: for every collection whose items are empty, or whose
selection is Some(i) with i in bounds, applying move_next len times
(len the number of items) returns the selection to exactly its starting
value. -/
theorem next_iterate_len_restores_selection {T : Type} (l : StatefulList T)
    (h : l.items = [] ∨ ∃ i, l.state.selected = some i ∧ i < l.items.length) :
    (StatefulList.next^[l.items.length] l).state.selected = l.state.selected := by
  rcases h with h | ⟨i, hsel, hlt⟩
  · rw [h]
    rfl
  · rw [(StatefulList.next_iterate_mod l i hsel hlt l.items.length).1, hsel,
      Nat.add_mod_right, Nat.mod_eq_of_lt hlt]

/-- C7 witness: a three-element collection selected at index 1; three
applications of move_next wrap around back to index 1. -/
theorem next_iterate_len_restores_selection_witness :
    (StatefulList.next^[(StatefulList.mk (ListState.mk 0 (some 1))
        [({ pathbuf := "a", is_file := true, _is_delete := true } : PathEntry),
         { pathbuf := "b", is_file := false, _is_delete := true },
         { pathbuf := "c", is_file := true, _is_delete := false }]).items.length]
      (StatefulList.mk (ListState.mk 0 (some 1))
        [({ pathbuf := "a", is_file := true, _is_delete := true } : PathEntry),
         { pathbuf := "b", is_file := false, _is_delete := true },
         { pathbuf := "c", is_file := true, _is_delete := false }])).state.selected
      = (StatefulList.mk (ListState.mk 0 (some 1))
          [({ pathbuf := "a", is_file := true, _is_delete := true } : PathEntry),
           { pathbuf := "b", is_file := false, _is_delete := true },
           { pathbuf := "c", is_file := true, _is_delete := false }]).state.selected := by
  exact next_iterate_len_restores_selection _ (Or.inr ⟨1, rfl, by decide⟩)

/-- next is the identity on a collection with no items. -/
theorem StatefulList.next_eq_self_of_empty {T : Type} (l : StatefulList T)
    (h : l.items = []) : StatefulList.next l = l := by
  unfold StatefulList.next
  rw [h]
  rfl

/-- previous is the identity on a collection with no items. -/
theorem StatefulList.previous_eq_self_of_empty {T : Type} (l : StatefulList T)
    (h : l.items = []) : StatefulList.previous l = l := by
  unfold StatefulList.previous
  rw [h]
  rfl

/-- C8 counterexample: on a one-element collection with no selection,
move_next followed by move_previous yields selection Some(0), not the
starting value None, so the inverse claim fails as stated for the None
selection it includes. -/
theorem next_previous_none_selection_counterexample :
    (StatefulList.mk (ListState.mk 0 none)
        [({ pathbuf := "a", is_file := true, _is_delete := true } :
          PathEntry)]).state.selected = none
      ∧ ((StatefulList.mk (ListState.mk 0 none)
          [({ pathbuf := "a", is_file := true, _is_delete := true } :
            PathEntry)]).next.previous).state.selected = some 0 := by
  exact ⟨rfl, rfl⟩

/-- C8 as amended: for every collection whose items are empty, or whose
selection is Some(i) with i in bounds, move_next then move_previous —
and symmetrically move_previous then move_next — restores the selection
to exactly its prior value. -/
theorem next_previous_inverse {T : Type} (l : StatefulList T)
    (h : l.items = [] ∨ ∃ i, l.state.selected = some i ∧ i < l.items.length) :
    ((l.next).previous).state.selected = l.state.selected
      ∧ ((l.previous).next).state.selected = l.state.selected := by
  rcases h with h | ⟨i, hsel, hlt⟩
  · rw [StatefulList.next_eq_self_of_empty l h,
      StatefulList.previous_eq_self_of_empty l h,
      StatefulList.next_eq_self_of_empty l h]
    exact ⟨rfl, rfl⟩
  · have hne : l.items.isEmpty = false := by
      cases hl : l.items with
      | nil => rw [hl] at hlt; simp at hlt
      | cons a t => rfl
    constructor
    · have h1 := StatefulList.next_selected_eq l i hne hsel
      have h2 := StatefulList.previous_selected_eq l.next _
        (by rw [StatefulList.next_items]; exact hne) h1
      rw [StatefulList.next_items] at h2
      rw [h2, hsel]
      congr 1
      by_cases hc : l.items.length - 1 ≤ i
      · rw [if_pos hc, if_pos rfl]
        omega
      · rw [if_neg hc, if_neg (by omega)]
        omega
    · have h1 := StatefulList.previous_selected_eq l i hne hsel
      have h2 := StatefulList.next_selected_eq l.previous _
        (by rw [StatefulList.previous_items]; exact hne) h1
      rw [StatefulList.previous_items] at h2
      rw [h2, hsel]
      congr 1
      by_cases hc : i = 0
      · subst hc
        rw [if_pos rfl, if_pos (le_refl _)]
      · rw [if_neg hc, if_neg (by omega)]
        omega

/-- C8 witness: a two-element collection selected at index 0; both
compositions restore the selection. -/
theorem next_previous_inverse_witness :
    (((StatefulList.mk (ListState.mk 0 (some 0))
        [({ pathbuf := "a", is_file := true, _is_delete := true } : PathEntry),
         { pathbuf := "b", is_file := false, _is_delete := false }]).next.previous).state.selected
        = (StatefulList.mk (ListState.mk 0 (some 0))
            [({ pathbuf := "a", is_file := true, _is_delete := true } : PathEntry),
             { pathbuf := "b", is_file := false, _is_delete := false }]).state.selected)
      ∧ (((StatefulList.mk (ListState.mk 0 (some 0))
          [({ pathbuf := "a", is_file := true, _is_delete := true } : PathEntry),
           { pathbuf := "b", is_file := false, _is_delete := false }]).previous.next).state.selected
          = (StatefulList.mk (ListState.mk 0 (some 0))
              [({ pathbuf := "a", is_file := true, _is_delete := true } : PathEntry),
               { pathbuf := "b", is_file := false, _is_delete := false }]).state.selected) := by
  exact next_previous_inverse _ (Or.inr ⟨0, rfl, by decide⟩)

/-- C10: when the selection is an in-bounds index i, toggle-mark changes
exactly the deletion flag of the entry at index i: the result is the same
App (same mode, same input buffer, same case-sensitivity options, same
selection state) whose items are the untouched prefix before i, the entry
at i with only its flag toggled, and the untouched suffix after i; the
last two conjuncts record that the toggle leaves the entry's path and
is_file untouched. -/
theorem toggle_delete_frame (app : App) (i : Nat)
    (hsel : app.list.get_index = some i) (hlt : i < app.list.items.length) :
    app.toggle_delete
      = some { app with list := { app.list with
          items := app.list.items.take i
            ++ ((app.list.items.drop i).take 1).map PathEntry.toggle_delete
            ++ app.list.items.drop (i + 1) } }
      ∧ ((app.list.items.drop i).take 1).map (fun e => e.toggle_delete.pathbuf)
          = ((app.list.items.drop i).take 1).map (fun e => e.pathbuf)
      ∧ ((app.list.items.drop i).take 1).map (fun e => e.toggle_delete.is_file)
          = ((app.list.items.drop i).take 1).map (fun e => e.is_file) := by
  refine ⟨?_, rfl, rfl⟩
  have hitems : app.list.items.set i ((app.list.items.get ⟨i, hlt⟩).toggle_delete)
      = app.list.items.take i
        ++ ((app.list.items.drop i).take 1).map PathEntry.toggle_delete
        ++ app.list.items.drop (i + 1) := by
    have hdrop : app.list.items.drop i
        = app.list.items.get ⟨i, hlt⟩ :: app.list.items.drop (i + 1) := by
      rw [List.get_eq_getElem]
      exact List.drop_eq_getElem_cons hlt
    have htake : ((app.list.items.get ⟨i, hlt⟩
          :: app.list.items.drop (i + 1)).take 1)
        = [app.list.items.get ⟨i, hlt⟩] := rfl
    rw [List.set_eq_take_cons_drop _ hlt, hdrop, htake, List.map_cons,
      List.map_nil, List.append_assoc, List.singleton_append]
  have hstep : app.toggle_delete
      = some { app with list := { app.list with
          items := app.list.items.set i
            ((app.list.items.get ⟨i, hlt⟩).toggle_delete) } } := by
    unfold App.toggle_delete
    rw [hsel]
    exact dif_pos hlt
  rw [hstep, hitems]

/-- C10 witness: a two-entry App selected at index 0; toggle-mark flips
exactly the first entry's flag. -/
theorem toggle_delete_frame_witness :
    (App.update_list App.new
        [{ pathbuf := "a.txt", is_file := true, _is_delete := true },
         { pathbuf := "b", is_file := false, _is_delete := false }]).toggle_delete
      = some { App.update_list App.new
          [{ pathbuf := "a.txt", is_file := true, _is_delete := true },
           { pathbuf := "b", is_file := false, _is_delete := false }] with
          list := { (App.update_list App.new
            [{ pathbuf := "a.txt", is_file := true, _is_delete := true },
             { pathbuf := "b", is_file := false, _is_delete := false }]).list with
            items := (App.update_list App.new
                [{ pathbuf := "a.txt", is_file := true, _is_delete := true },
                 { pathbuf := "b", is_file := false, _is_delete := false }]).list.items.take 0
              ++ (((App.update_list App.new
                  [{ pathbuf := "a.txt", is_file := true, _is_delete := true },
                   { pathbuf := "b", is_file := false, _is_delete := false }]).list.items.drop 0).take 1).map
                  PathEntry.toggle_delete
              ++ (App.update_list App.new
                  [{ pathbuf := "a.txt", is_file := true, _is_delete := true },
                   { pathbuf := "b", is_file := false, _is_delete := false }]).list.items.drop 1 } }
      ∧ (((App.update_list App.new
            [{ pathbuf := "a.txt", is_file := true, _is_delete := true },
             { pathbuf := "b", is_file := false, _is_delete := false }]).list.items.drop 0).take 1).map
          (fun e => e.toggle_delete.pathbuf)
          = (((App.update_list App.new
              [{ pathbuf := "a.txt", is_file := true, _is_delete := true },
               { pathbuf := "b", is_file := false, _is_delete := false }]).list.items.drop 0).take 1).map
            (fun e => e.pathbuf)
      ∧ (((App.update_list App.new
            [{ pathbuf := "a.txt", is_file := true, _is_delete := true },
             { pathbuf := "b", is_file := false, _is_delete := false }]).list.items.drop 0).take 1).map
          (fun e => e.toggle_delete.is_file)
          = (((App.update_list App.new
              [{ pathbuf := "a.txt", is_file := true, _is_delete := true },
               { pathbuf := "b", is_file := false, _is_delete := false }]).list.items.drop 0).take 1).map
            (fun e => e.is_file) := by
  exact toggle_delete_frame _ 0 rfl (by decide)
